import Mathlib

set_option maxRecDepth 2000

/-!
Formal model of `chapter_tool.py` (Audio-Kapitelmarken-Tool).

Conventions of the embedding:

* Python `float` values are modeled as exact rationals (`ℚ`).  Every concrete
  number used in a theorem below is exactly representable as a binary double
  and all arithmetic on it is exact in IEEE-754 double precision, so on those
  inputs the rational model and the Python implementation agree bit for bit.
* Python strings are modeled as Lean `String`s; the handful of `str` methods
  the tool uses (`strip`, `split('\t')`) are re-implemented below on
  `List Char` with Python's semantics for a single-character separator.
* The label file is modeled as the list of its lines (Python iterates
  `for line in f`; the trailing newline of each line is removed by the
  subsequent `line.strip()`, so passing lines without their terminators is
  faithful).
* An uncaught Python exception (`float(...)` raising `ValueError`) is modeled
  by propagating `none` through `parse_audacity_labels`.
* Subprocess side effects (the ffmpeg/ffprobe invocations) are modeled by
  descriptor records capturing exactly the data the tool puts into the
  command line: the loudnorm filter parameters and the output path each
  external encoder run writes to.
-/

/-- Python truncating conversion `int(q)`: rounds toward zero.  Stated with
the executable `Rat.floor`/`Rat.ceil`; `pyInt_eq` below identifies it with
the mathematical floor/ceiling. -/
def pyInt (q : ℚ) : ℤ :=
  if 0 ≤ q then q.floor else q.ceil

/-- Python `str.strip()` on the character list of a string: removes leading
and trailing whitespace (the tool only ever feeds it ASCII whitespace, on
which `Char.isWhitespace` and Python's notion agree). -/
def pyStrip (cs : List Char) : List Char :=
  ((cs.dropWhile Char.isWhitespace).reverse.dropWhile Char.isWhitespace).reverse

/-- Python `str.split(sep)` for a single-character separator, on character
lists: split at every occurrence of `sep`, keeping empty pieces, and return
`[[]]` for the empty string. -/
def splitSep (sep : Char) : List Char → List (List Char)
  | [] => [[]]
  | c :: rest =>
    if c = sep then [] :: splitSep sep rest
    else
      match splitSep sep rest with
      | [] => [[c]]
      | l :: ls => (c :: l) :: ls

/-- Value of a list of decimal digit characters, most significant first. -/
def digitsVal (cs : List Char) : ℕ :=
  cs.foldl (fun acc c => 10 * acc + (c.toNat - 48)) 0

/-- Helper for `pyFloat`: the exponent part after an `e`/`E` has been
consumed.  `sgn` is the sign of the whole literal, `ip`/`fp` the integer and
fractional digit lists of the mantissa. -/
def pyFloatExp (sgn : ℚ) (ip fp : List Char) (r : List Char) : Option ℚ :=
  let epos : Bool × List Char :=
    match r with
    | '-' :: t => (false, t)
    | '+' :: t => (true, t)
    | _ => (true, r)
  let ed := epos.2.takeWhile Char.isDigit
  let r2 := epos.2.dropWhile Char.isDigit
  if ed = [] ∨ r2 ≠ [] then none
  else
    let mant : ℚ := (digitsVal ip : ℚ) + (digitsVal fp : ℚ) / (10 : ℚ) ^ fp.length
    some (sgn * (if epos.1 then mant * (10 : ℚ) ^ digitsVal ed else mant / (10 : ℚ) ^ digitsVal ed))

/-- Core of `pyFloat` on an already-stripped character list. -/
def pyFloatAux (cs0 : List Char) : Option ℚ :=
  let scs : ℚ × List Char :=
    match cs0 with
    | '-' :: rest => (-1, rest)
    | '+' :: rest => (1, rest)
    | _ => (1, cs0)
  let cs := scs.2
  let ip := cs.takeWhile Char.isDigit
  let cs1 := cs.dropWhile Char.isDigit
  let fpcs : List Char × List Char :=
    match cs1 with
    | '.' :: r => (r.takeWhile Char.isDigit, r.dropWhile Char.isDigit)
    | _ => ([], cs1)
  let fp := fpcs.1
  if ip = [] ∧ fp = [] then none
  else
    match fpcs.2 with
    | [] => some (scs.1 * ((digitsVal ip : ℚ) + (digitsVal fp : ℚ) / (10 : ℚ) ^ fp.length))
    | 'e' :: r => pyFloatExp scs.1 ip fp r
    | 'E' :: r => pyFloatExp scs.1 ip fp r
    | _ => none

/-- Python's `float(s)` builtin on decimal literals, exactly over `ℚ`:
optional surrounding whitespace, optional sign, decimal digits with an
optional fractional part and an optional decimal exponent.  `none` models
`ValueError`.  (The special forms `inf`/`nan` and `_` digit separators are
accepted by Python but never produced by Audacity label files and are not
needed by any claim; they are omitted.) -/
def pyFloat (s : String) : Option ℚ :=
  pyFloatAux (pyStrip s.data)

/-- A chapter start event as produced by `parse_audacity_labels`:
the dict `{'start_sec': float, 'title': str}`. -/
structure Chapter where
  start_sec : ℚ
  title : String
deriving DecidableEq, Repr

/-- A resolved chapter interval as written into the FFMETADATA file by
`embed_chapters_ffmpeg`: integer milliseconds and a title. -/
structure ResolvedChapter where
  start_ms : ℤ
  end_ms : ℤ
  title : String
deriving DecidableEq, Repr

/-- Outcome of processing one line of the label file inside the loop of
`parse_audacity_labels` (lines 20–32 of `chapter_tool.py`). -/
inductive LineResult where
  | skip
  | chapter (c : Chapter)
  | error
deriving DecidableEq, Repr

/-- One iteration of the parsing loop: `line.strip()`; blank lines are
skipped; the line is split on tabs; with at least three fields,
`float(parts[0])` is the start (its failure is an uncaught `ValueError`,
modeled by `LineResult.error`) and `parts[2]` — exactly the third field —
is the title; lines with fewer than three fields are skipped. -/
def parse_line (line : String) : LineResult :=
  let l := pyStrip line.data
  if l = [] then .skip
  else
    match splitSep '\t' l with
    | p0 :: _ :: p2 :: _ =>
      match pyFloat (String.mk p0) with
      | none => .error
      | some q => .chapter ⟨q, String.mk p2⟩
    | _ => .skip

/-- The chapter list accumulated by the parsing loop, in input order;
`none` models the `ValueError` escaping `parse_audacity_labels`. -/
def collectChapters : List String → Option (List Chapter)
  | [] => some []
  | line :: rest =>
    match parse_line line with
    | .skip => collectChapters rest
    | .error => none
    | .chapter c => (collectChapters rest).map (c :: ·)

/-- Python's `sorted(chapters, key=lambda x: x['start_sec'])`: a stable sort
by start time.  A stable sort is extensionally unique for a total preorder,
so Python's Timsort is modeled by insertion sort (which is stable). -/
def sortChapters (cs : List Chapter) : List Chapter :=
  List.insertionSort (fun a b => a.start_sec ≤ b.start_sec) cs

/-- `parse_audacity_labels`, over the list of lines of the label file. -/
def parse_audacity_labels (lines : List String) : Option (List Chapter) :=
  (collectChapters lines).map sortChapters

/-- The end-time resolution loop of `embed_chapters_ffmpeg` (lines 166–180):
for each chapter, `end_sec` is the next chapter's `start_sec` if one exists,
else the probed file duration `dur` (a float number of seconds); then
`start_ms = int(start_sec * 1000)` and `end_ms = int(end_sec * 1000)`. -/
def resolveChapters : List Chapter → ℚ → List ResolvedChapter
  | [], _ => []
  | [c], dur => [⟨pyInt (c.start_sec * 1000), pyInt (dur * 1000), c.title⟩]
  | c :: next :: rest, dur =>
    ⟨pyInt (c.start_sec * 1000), pyInt (next.start_sec * 1000), c.title⟩ ::
      resolveChapters (next :: rest) dur

/-- Python's `round()` builtin restricted to the rounding of a scale-free
rational: round to nearest, ties to even (banker's rounding), which is also
the rounding used when `printf`-style float formatting shortens a value. -/
def roundHalfEven (q : ℚ) : ℤ :=
  let f := q.floor
  let r := q - f
  if r < 1/2 then f
  else if 1/2 < r then f + 1
  else if f % 2 = 0 then f else f + 1

/-- Zero-pad a numeral string on the left to the given width
(Python's `0`-fill in a format specification). -/
def padZeros (width : ℕ) (s : String) : String :=
  if width ≤ s.length then s
  else String.mk (List.replicate (width - s.length) '0') ++ s

/-- Python `f"{n:02d}"` for an integer `n`. -/
def pyFormat02d (n : ℤ) : String :=
  if n < 0 then "-" ++ padZeros 1 (toString (-n).toNat)
  else padZeros 2 (toString n.toNat)

/-- Decimal fixed-point rendering of `n` thousandths with the integer part
zero-padded to width `w`: the body of Python's `f"{x:06.3f}"`. -/
def fixed3 (w : ℕ) (n : ℕ) : String :=
  padZeros w (toString (n / 1000)) ++ "." ++ padZeros 3 (toString (n % 1000))

/-- Python `f"{x:06.3f}"`: the value rounded to three decimal places
(correctly rounded, ties to even) and zero-padded to a total width of six
characters. -/
def pyFormat063f (q : ℚ) : String :=
  let m := roundHalfEven (q * 1000)
  if m < 0 then "-" ++ fixed3 1 (-m).toNat else fixed3 2 m.toNat

/-- Python `a // b` on floats (floor division) followed by `int(...)`,
as used for the hour and minute fields of `format_time_hhmmss`. -/
def pyFloorDivInt (a b : ℚ) : ℤ :=
  (a / b).floor

/-- Python `a % b` on floats for positive `b`: `a - b * (a // b)`,
a value in `[0, b)`. -/
def pyMod (a b : ℚ) : ℚ :=
  a - b * ((a / b).floor : ℚ)

/-- `format_time_hhmmss(seconds)` (lines 150–155): `HH:MM:SS.mmm` from a
float number of SECONDS — hours and minutes by float floor division,
seconds as the float remainder formatted with `f"{secs:06.3f}"`. -/
def format_time_hhmmss (seconds : ℚ) : String :=
  pyFormat02d (pyFloorDivInt seconds 3600) ++ ":" ++
    pyFormat02d (pyFloorDivInt (pyMod seconds 3600) 60) ++ ":" ++
    pyFormat063f (pyMod seconds 60)

/-- The five `meta_file.write` calls for one chapter of the FFMETADATA file
(lines 182–186). -/
def chapterWrites (r : ResolvedChapter) : List String :=
  ["[CHAPTER]\n", "TIMEBASE=1/1000\n",
   "START=" ++ toString r.start_ms ++ "\n",
   "END=" ++ toString r.end_ms ++ "\n",
   "title=" ++ r.title ++ "\n"]

/-- Sequential concatenation of a list of file writes into the final file
content. -/
def concatWrites : List String → String
  | [] => ""
  | w :: ws => w ++ concatWrites ws

/-- All writes to the ffmpeg metadata file of `embed_chapters_ffmpeg`
(lines 163–186): the `;FFMETADATA1` header line followed by the per-chapter
stanzas, in chapter order. -/
def ffmetadataWrites (chapters : List Chapter) (dur : ℚ) : List String :=
  ";FFMETADATA1\n" :: (resolveChapters chapters dur).flatMap chapterWrites

/-- The full text content of the metadata file. -/
def ffmetadataText (chapters : List Chapter) (dur : ℚ) : String :=
  concatWrites (ffmetadataWrites chapters dur)

/-- The four measured values `analyze_loudness` extracts from the loudnorm
JSON block (lines 78–92). -/
structure LoudnessMeasurement where
  input_i : ℚ
  input_tp : ℚ
  input_lra : ℚ
  input_thresh : ℚ
deriving DecidableEq, Repr

/-- The parameters of one `loudnorm` filter invocation as assembled into an
ffmpeg `-af` argument: the target triple, the measured values passed back in
(`measured_I` … `measured_thresh`, absent in measurement and fallback mode),
and whether `linear=true` is requested. -/
structure LoudnormFilter where
  I : ℚ
  TP : ℚ
  LRA : ℚ
  measured : Option LoudnessMeasurement
  linear : Bool
deriving DecidableEq, Repr

/-- The filter of the measurement pass (line 61):
`loudnorm=I=-16:TP=-1.5:LRA=11:print_format=json` — the integrated-loudness
target is the hard-coded constant `-16`, independent of the caller's
`target_lufs`. -/
def analyze_loudness_filter : LoudnormFilter :=
  { I := -16, TP := -3/2, LRA := 11, measured := none, linear := false }

/-- Possible outcomes of the external measurement subprocess as
`analyze_loudness` distinguishes them: the subprocess failed
(`CalledProcessError`), its stderr held no parseable JSON block
(`json.JSONDecodeError`/`KeyError`/`ValueError`), or the four values were
extracted. -/
inductive MeasureOutcome where
  | procError
  | unparseable
  | parsed (m : LoudnessMeasurement)
deriving DecidableEq, Repr

/-- Return value of `analyze_loudness` (lines 65–96): `None` on any failure
of the external call or of parsing, the measured values otherwise. -/
def analyze_loudness : MeasureOutcome → Option LoudnessMeasurement
  | .procError => none
  | .unparseable => none
  | .parsed m => some m

/-- The ffmpeg command `convert_to_mp3` assembles, reduced to the data the
claims are about: the loudnorm `-af` filter (if any) and the path the
encoder writes to. -/
structure ConvertCmd where
  af : Option LoudnormFilter
  output : String
deriving DecidableEq, Repr

/-- The command-construction logic of `convert_to_mp3` (lines 103–135):
with normalization on and measurement data available, a linear-mode filter
carrying the four measured values; with normalization on but measurement
failed, a single-pass dynamic filter with only the target triple; with
normalization off, no filter.  In every branch the encoder writes to
`output_file`. -/
def convert_to_mp3_cmd (output_file : String) (normalize : Bool) (target_lufs : ℚ)
    (loudness_data : Option LoudnessMeasurement) : ConvertCmd :=
  if normalize then
    match loudness_data with
    | some m =>
      ⟨some { I := target_lufs, TP := -3/2, LRA := 11, measured := some m, linear := true },
        output_file⟩
    | none =>
      ⟨some { I := target_lufs, TP := -3/2, LRA := 11, measured := none, linear := false },
        output_file⟩
  else ⟨none, output_file⟩

/-- The normalization pipeline of `convert_to_mp3`: measure (line 106), then
build the conversion command from the measurement result. -/
def convert_to_mp3_pipeline (output_file : String) (normalize : Bool) (target_lufs : ℚ)
    (outcome : MeasureOutcome) : ConvertCmd :=
  convert_to_mp3_cmd output_file normalize target_lufs
    (if normalize then analyze_loudness outcome else none)

/-- Python `pathlib.Path.with_suffix` for plain file names (no directory
separators, nonempty stem): the part after the last dot is replaced by
`suffix`; a name without a dot gets `suffix` appended. -/
def with_suffix (p suffix : String) : String :=
  let parts := splitSep '.' p.data
  if parts.length ≤ 1 then p ++ suffix
  else String.mk (List.intercalate ['.'] parts.dropLast) ++ suffix

/-- The file-system effect of one apply/write step, as the claims discuss
it: the path the external encoder writes its output to, and the
rename-over-target performed after (and only after) the subprocess
succeeds. -/
structure WriteStep where
  subprocessOutput : String
  replaceOnSuccess : Option (String × String)
deriving DecidableEq, Repr

/-- The write behavior of `convert_to_mp3` (lines 110–138): ffmpeg is given
`str(output_file)` itself as its output path, and no temporary file or
rename is involved. -/
def convert_to_mp3_write (output_file : String) : WriteStep :=
  { subprocessOutput := output_file, replaceOnSuccess := none }

/-- The write behavior of `embed_chapters_ffmpeg` (lines 192–205): ffmpeg
writes to `temp_output = mp3_file.with_suffix('.tmp.mp3')` and only after
the subprocess returns successfully is `temp_output.replace(mp3_file)`
executed. -/
def embed_chapters_write (mp3_file : String) : WriteStep :=
  { subprocessOutput := with_suffix mp3_file ".tmp.mp3",
    replaceOnSuccess := some (with_suffix mp3_file ".tmp.mp3", mp3_file) }

theorem rat_floor_eq (q : ℚ) : q.floor = ⌊q⌋ := by
  rw [Rat.floor_def', Rat.floor_def]

theorem rat_ceil_eq (q : ℚ) : q.ceil = ⌈q⌉ := by
  unfold Rat.ceil
  split
  · next h =>
    conv_rhs => rw [← Rat.coe_int_num_of_den_eq_one h]
    exact (Int.ceil_intCast q.num).symm
  · next h =>
    rw [← Rat.floor_def]
    symm
    rw [Int.ceil_eq_iff]
    refine ⟨?_, ?_⟩
    · push_cast
      have hne : ((⌊q⌋ : ℚ)) ≠ q := by
        intro he
        exact h (by rw [← he, Rat.den_intCast])
      have hlt := (Int.floor_le q).lt_of_ne hne
      linarith
    · push_cast
      exact (Int.lt_floor_add_one q).le

/-- The truncating `int()` conversion is the floor for non-negative and the
ceiling for negative arguments. -/
theorem pyInt_eq (q : ℚ) : pyInt q = if 0 ≤ q then ⌊q⌋ else ⌈q⌉ := by
  simp only [pyInt, rat_floor_eq, rat_ceil_eq]

/-- Truncation toward zero is monotone. -/
theorem pyInt_mono {a b : ℚ} (h : a ≤ b) : pyInt a ≤ pyInt b := by
  rw [pyInt_eq, pyInt_eq]
  by_cases ha : 0 ≤ a
  · rw [if_pos ha, if_pos (ha.trans h)]
    exact Int.floor_mono h
  · by_cases hb : 0 ≤ b
    · rw [if_neg ha, if_pos hb]
      have h1 : ⌈a⌉ ≤ 0 := Int.ceil_le.mpr (by exact_mod_cast le_of_not_le ha)
      have h2 : 0 ≤ ⌊b⌋ := Int.le_floor.mpr (by exact_mod_cast hb)
      omega
    · rw [if_neg ha, if_neg hb]
      exact Int.ceil_mono h

/-- The start times of the resolved chapters are exactly the truncated
millisecond values of the input events, in order. -/
theorem resolve_map_start (cs : List Chapter) (d : ℚ) :
    (resolveChapters cs d).map ResolvedChapter.start_ms
      = cs.map (fun c => pyInt (c.start_sec * 1000)) := by
  induction cs with
  | nil => rfl
  | cons c rest ih =>
    cases rest with
    | nil => rfl
    | cons c2 rest2 =>
      simp only [resolveChapters, List.map_cons] at ih ⊢
      rw [ih]

/-- Resolution preserves the titles, in order. -/
theorem resolve_map_title (cs : List Chapter) (d : ℚ) :
    (resolveChapters cs d).map ResolvedChapter.title = cs.map Chapter.title := by
  induction cs with
  | nil => rfl
  | cons c rest ih =>
    cases rest with
    | nil => rfl
    | cons c2 rest2 =>
      simp only [resolveChapters, List.map_cons] at ih ⊢
      rw [ih]

/-- Resolution produces exactly one interval per event: nothing is dropped
or rejected. -/
theorem resolve_length (cs : List Chapter) (d : ℚ) :
    (resolveChapters cs d).length = cs.length := by
  have h := congrArg List.length (resolve_map_start cs d)
  simpa using h

theorem resolve_ne_nil (c : Chapter) (rest : List Chapter) (d : ℚ) :
    ∃ r t, resolveChapters (c :: rest) d = r :: t ∧ r.start_ms = pyInt (c.start_sec * 1000) := by
  cases rest with
  | nil => exact ⟨_, _, rfl, rfl⟩
  | cons c2 rest2 => exact ⟨_, _, rfl, rfl⟩

/-- Adjacent resolved chapters always chain: each chapter's end is the next
chapter's start, by construction of the resolution loop. -/
theorem resolve_chain (cs : List Chapter) (d : ℚ) :
    List.Chain' (fun a b => a.end_ms = b.start_ms) (resolveChapters cs d) := by
  induction cs with
  | nil => simp [resolveChapters]
  | cons c rest ih =>
    cases rest with
    | nil => simp [resolveChapters]
    | cons c2 rest2 =>
      obtain ⟨r, t, he, hs⟩ := resolve_ne_nil c2 rest2 d
      rw [resolveChapters, List.chain'_cons']
      refine ⟨?_, ih⟩
      intro y hy
      rw [he] at hy
      simp only [List.head?_cons, Option.mem_def, Option.some.injEq] at hy
      subst hy
      exact hs.symm

/-- The last resolved chapter's end is the truncated millisecond value of
the probed total duration. -/
theorem resolve_getLast (cs : List Chapter) (d : ℚ) (r : ResolvedChapter)
    (h : (resolveChapters cs d).getLast? = some r) :
    r.end_ms = pyInt (d * 1000) := by
  induction cs with
  | nil => simp [resolveChapters] at h
  | cons c rest ih =>
    cases rest with
    | nil =>
      simp only [resolveChapters, List.getLast?_singleton, Option.some.injEq] at h
      rw [← h]
    | cons c2 rest2 =>
      obtain ⟨y, t, he, _⟩ := resolve_ne_nil c2 rest2 d
      rw [resolveChapters, he, List.getLast?_cons_cons] at h
      rw [he] at ih
      exact ih h

/-- The sorted chapter list is pairwise ordered by start time. -/
theorem sortChapters_pairwise (cs : List Chapter) :
    List.Pairwise (fun a b => a.start_sec ≤ b.start_sec) (sortChapters cs) := by
  haveI : IsTotal Chapter (fun a b => a.start_sec ≤ b.start_sec) :=
    ⟨fun a b => le_total a.start_sec b.start_sec⟩
  haveI : IsTrans Chapter (fun a b => a.start_sec ≤ b.start_sec) :=
    ⟨fun _ _ _ hab hbc => le_trans hab hbc⟩
  exact List.sorted_insertionSort _ cs

/-- A line that strips and splits into at least three tab-separated fields,
the first of which parses as a float, yields exactly one chapter whose start
is that float and whose title is the third field. -/
theorem parse_line_chapter (line : String) (p0 p1 p2 : List Char) (ps : List (List Char))
    (q : ℚ) (hsplit : splitSep '\t' (pyStrip line.data) = p0 :: p1 :: p2 :: ps)
    (hq : pyFloat (String.mk p0) = some q) :
    parse_line line = .chapter ⟨q, String.mk p2⟩ := by
  have hne : pyStrip line.data ≠ [] := by
    intro h0
    rw [h0] at hsplit
    simp [splitSep] at hsplit
  rw [parse_line]
  simp only [hne, if_neg, hsplit, hq, reduceCtorEq, if_false]

/-- Parsing a single such line produces the singleton chapter list. -/
theorem parse_single (line : String) (p0 p1 p2 : List Char) (ps : List (List Char))
    (q : ℚ) (hsplit : splitSep '\t' (pyStrip line.data) = p0 :: p1 :: p2 :: ps)
    (hq : pyFloat (String.mk p0) = some q) :
    parse_audacity_labels [line] = some [⟨q, String.mk p2⟩] := by
  rw [parse_audacity_labels, collectChapters, parse_line_chapter line p0 p1 p2 ps q hsplit hq]
  rfl

/-- A line whose stripped form splits into fewer than three tab-separated
fields (this includes blank lines) is skipped: parsing continues with the
remaining lines unchanged. -/
theorem parse_skip_short (line : String) (lines : List String)
    (h : (splitSep '\t' (pyStrip line.data)).length < 3) :
    parse_audacity_labels (line :: lines) = parse_audacity_labels lines := by
  have hskip : parse_line line = .skip := by
    rw [parse_line]
    by_cases h0 : pyStrip line.data = []
    · simp [h0]
    · rcases hs : splitSep '\t' (pyStrip line.data) with _ | ⟨a, _ | ⟨b, _ | ⟨c, r⟩⟩⟩
      · simp [h0, hs]
      · simp [h0, hs]
      · simp [h0, hs]
      · rw [hs] at h
        simp at h
        omega
  rw [parse_audacity_labels, collectChapters, hskip, ← parse_audacity_labels]

/-- Splitting at a separator peels off a separator-free prefix. -/
theorem splitSep_append (sep : Char) (l : List Char) (h : sep ∉ l) (rest : List Char) :
    splitSep sep (l ++ sep :: rest) = l :: splitSep sep rest := by
  induction l with
  | nil => simp [splitSep]
  | cons c t ih =>
    simp only [List.mem_cons, not_or] at h
    have hc : ¬(c = sep) := fun he => h.1 he.symm
    rw [List.cons_append, splitSep, if_neg hc, ih h.2]

theorem digitChar_star (m : ℕ) (hm : 16 ≤ m) : Nat.digitChar m = '*' := by
  unfold Nat.digitChar
  repeat rw [if_neg (by omega)]

theorem digitChar_ne_newline (n : ℕ) : Nat.digitChar n ≠ '\n' := by
  by_cases h16 : n < 16
  · interval_cases n <;> decide
  · rw [digitChar_star n (by omega)]
    decide

/-- Splitting a block of five newline-terminated lines followed by further
content yields the five lines and then the lines of the remaining content. -/
theorem splitSep_block (l1 l2 l3 l4 l5 Y : List Char)
    (h1 : '\n' ∉ l1) (h2 : '\n' ∉ l2) (h3 : '\n' ∉ l3) (h4 : '\n' ∉ l4)
    (h5 : '\n' ∉ l5) :
    splitSep '\n'
        ((l1 ++ '\n' :: (l2 ++ '\n' :: (l3 ++ '\n' :: (l4 ++ '\n' :: (l5 ++ ['\n']))))) ++ Y)
      = l1 :: l2 :: l3 :: l4 :: l5 :: splitSep '\n' Y := by
  have hassoc :
      (l1 ++ '\n' :: (l2 ++ '\n' :: (l3 ++ '\n' :: (l4 ++ '\n' :: (l5 ++ ['\n']))))) ++ Y
        = l1 ++ '\n' :: (l2 ++ '\n' :: (l3 ++ '\n' :: (l4 ++ '\n' :: (l5 ++ '\n' :: Y)))) := by
    simp
  rw [hassoc, splitSep_append _ _ h1, splitSep_append _ _ h2, splitSep_append _ _ h3,
    splitSep_append _ _ h4, splitSep_append _ _ h5]

theorem toDigitsCore_ne_newline (b fuel n : ℕ) (acc : List Char) (hacc : '\n' ∉ acc) :
    '\n' ∉ Nat.toDigitsCore b fuel n acc := by
  induction fuel generalizing n acc with
  | zero => simpa [Nat.toDigitsCore] using hacc
  | succ f ih =>
    rw [Nat.toDigitsCore]
    have hcons : '\n' ∉ Nat.digitChar (n % b) :: acc := by
      intro hmem
      rcases List.mem_cons.mp hmem with he | hin
      · exact digitChar_ne_newline (n % b) he.symm
      · exact hacc hin
    split
    · exact hcons
    · exact ih (n / b) _ hcons

/-- The decimal rendering of an integer contains no newline character. -/
theorem int_toString_ne_newline (i : ℤ) : '\n' ∉ (toString i).data := by
  have hnat : ∀ m : ℕ, '\n' ∉ (Nat.repr m).data := by
    intro m
    have h := toDigitsCore_ne_newline 10 (m + 1) m [] (by simp)
    simpa [Nat.repr, Nat.toDigits, List.asString] using h
  cases i with
  | ofNat m => exact hnat m
  | negSucc m =>
    show '\n' ∉ (Int.repr (Int.negSucc m)).data
    rw [Int.repr]
    intro hmem
    rw [String.data_append] at hmem
    rcases List.mem_append.mp hmem with hin | hin
    · simp at hin
    · exact hnat _ hin

/-- The content of the metadata file is the concatenation of the characters
of the individual writes. -/
theorem concatWrites_data (ws : List String) :
    (concatWrites ws).data = (ws.map String.data).flatten := by
  induction ws with
  | nil => rfl
  | cons w t ih =>
    rw [concatWrites, String.data_append, ih, List.map_cons, List.flatten_cons]

theorem concatWrites_append (a b : List String) :
    (concatWrites (a ++ b)).data = (concatWrites a).data ++ (concatWrites b).data := by
  simp [concatWrites_data]

/-- Line decomposition of the stanza block: splitting the concatenated
per-chapter writes at newlines yields exactly the five fields of each
chapter in order, each stanza in chapter order, and a final empty line
(the file ends with a newline). -/
theorem stanzas_splitSep (rs : List ResolvedChapter)
    (h : ∀ r ∈ rs, '\n' ∉ r.title.data) :
    splitSep '\n' (concatWrites (rs.flatMap chapterWrites)).data =
      (rs.flatMap fun r =>
        ["[CHAPTER]".data, "TIMEBASE=1/1000".data,
         ("START=" ++ toString r.start_ms).data,
         ("END=" ++ toString r.end_ms).data,
         ("title=" ++ r.title).data]) ++ [[]] := by
  induction rs with
  | nil => rfl
  | cons r t ih =>
    have ht : ∀ x ∈ t, '\n' ∉ x.title.data := fun x hx => h x (List.mem_cons_of_mem r hx)
    have hr : '\n' ∉ r.title.data := h r (List.mem_cons_self r t)
    have e1 : "[CHAPTER]\n".data = "[CHAPTER]".data ++ ['\n'] := rfl
    have e2 : "TIMEBASE=1/1000\n".data = "TIMEBASE=1/1000".data ++ ['\n'] := rfl
    have e3 : "\n".data = ['\n'] := rfl
    rw [List.flatMap_cons, concatWrites_append]
    have hw : (concatWrites (chapterWrites r)).data =
        "[CHAPTER]".data ++ '\n' ::
          ("TIMEBASE=1/1000".data ++ '\n' ::
            (("START=" ++ toString r.start_ms).data ++ '\n' ::
              (("END=" ++ toString r.end_ms).data ++ '\n' ::
                (("title=" ++ r.title).data ++ ['\n'])))) := by
      simp only [concatWrites, chapterWrites, String.data_append, e1, e2, e3,
        List.append_assoc, List.append_nil, List.nil_append, List.cons_append,
        List.singleton_append]
    rw [hw]
    have h1 : '\n' ∉ "[CHAPTER]".data := by decide
    have h2 : '\n' ∉ "TIMEBASE=1/1000".data := by decide
    have h3 : '\n' ∉ ("START=" ++ toString r.start_ms).data := by
      rw [String.data_append]
      intro hmem
      rcases List.mem_append.mp hmem with hin | hin
      · revert hin
        decide
      · exact int_toString_ne_newline _ hin
    have h4 : '\n' ∉ ("END=" ++ toString r.end_ms).data := by
      rw [String.data_append]
      intro hmem
      rcases List.mem_append.mp hmem with hin | hin
      · revert hin
        decide
      · exact int_toString_ne_newline _ hin
    have h5 : '\n' ∉ ("title=" ++ r.title).data := by
      rw [String.data_append]
      intro hmem
      rcases List.mem_append.mp hmem with hin | hin
      · revert hin
        decide
      · exact hr hin
    rw [splitSep_block _ _ _ _ _ _ h1 h2 h3 h4 h5, ih ht]
    simp

/-- C1: for every non-empty resolved chapter list produced from events and a
total duration, the chapters are sorted by start time ascending, the end of
chapter i equals the start of chapter i+1 for every i < n-1, and the end of
the last chapter equals the total track duration in milliseconds. -/
theorem chapters_gapless_sorted (events : List Chapter) (d : ℚ)
    (_hne : resolveChapters (sortChapters events) d ≠ []) :
    List.Sorted (· ≤ ·)
        ((resolveChapters (sortChapters events) d).map ResolvedChapter.start_ms)
      ∧ List.Chain' (fun a b => a.end_ms = b.start_ms)
          (resolveChapters (sortChapters events) d)
      ∧ ∀ r, (resolveChapters (sortChapters events) d).getLast? = some r →
          r.end_ms = pyInt (d * 1000) := by
  refine ⟨?_, resolve_chain _ _, fun r h => resolve_getLast _ _ r h⟩
  rw [resolve_map_start]
  exact (sortChapters_pairwise events).map _
    (fun a b hab => pyInt_mono (mul_le_mul_of_nonneg_right hab (by norm_num)))

/-- Witness for C1 on the worked example of the specification: two events at
0 s and 10.5 s with a total duration of 20 s. -/
theorem chapters_gapless_sorted_witness :
    List.Sorted (· ≤ ·)
        ((resolveChapters (sortChapters [⟨0, "Intro"⟩, ⟨21/2, "Chapter Two"⟩]) 20).map
          ResolvedChapter.start_ms)
      ∧ List.Chain' (fun a b => a.end_ms = b.start_ms)
          (resolveChapters (sortChapters [⟨0, "Intro"⟩, ⟨21/2, "Chapter Two"⟩]) 20)
      ∧ ∀ r, (resolveChapters (sortChapters [⟨0, "Intro"⟩, ⟨21/2, "Chapter Two"⟩]) 20).getLast?
            = some r →
          r.end_ms = pyInt ((20 : ℚ) * 1000) :=
  chapters_gapless_sorted [⟨0, "Intro"⟩, ⟨21/2, "Chapter Two"⟩] 20
    (by with_unfolding_all decide)

/-- C2 counterexample: the resolution loop contains no degeneracy check at
all — a single marker at 0 s with total duration 0 s produces the zero-length
chapter (0, 0) instead of failing. -/
theorem resolve_degenerate_counterexample :
    resolveChapters (sortChapters [⟨0, "Intro"⟩]) 0 = [⟨0, 0, "Intro"⟩] := by
  simp only [sortChapters, List.insertionSort, List.orderedInsert, resolveChapters, pyInt_eq]
  norm_num

/-- C2 amended: the resolver never rejects or drops an interval — it emits
exactly one interval per event whatever the end times come out as, and on the
degenerate single-marker-at-zero input with zero duration it returns the
zero-length chapter. -/
theorem resolve_no_degenerate_check :
    (∀ cs d, (resolveChapters cs d).length = cs.length)
      ∧ resolveChapters (sortChapters [⟨0, "Intro"⟩]) 0 = [⟨0, 0, "Intro"⟩] := by
  refine ⟨fun cs d => resolve_length cs d, ?_⟩
  simp only [sortChapters, List.insertionSort, List.orderedInsert, resolveChapters, pyInt_eq]
  norm_num

/-- C3 counterexample: with a caller target of -20 LUFS the measured apply
pass targets I = -20 while the measure pass still targets the hard-coded
I = -16, so the two passes do not share the integrated-loudness target. -/
theorem loudnorm_measure_target_counterexample :
    analyze_loudness_filter.I = -16
      ∧ ((convert_to_mp3_cmd "out.mp3" true (-20) (some ⟨-23, -7, 9, -33⟩)).af.map
          LoudnormFilter.I) = some (-20)
      ∧ analyze_loudness_filter.I ≠ -20 := by
  refine ⟨rfl, rfl, ?_⟩
  rw [show analyze_loudness_filter.I = -16 from rfl]
  norm_num

/-- C3 amended: the measure pass always targets the fixed triple
(-16 LUFS, -1.5 dBTP, 11 LU) regardless of the caller's target, while the
apply pass (measured or fallback) targets the caller's LUFS with the same
fixed true-peak and loudness-range constants; only when the caller asks for
-16 do the two passes agree on the integrated target. -/
theorem loudnorm_targets (target : ℚ) (ld : Option LoudnessMeasurement) (out : String) :
    analyze_loudness_filter = ⟨-16, -3/2, 11, none, false⟩
      ∧ ∃ f, (convert_to_mp3_cmd out true target ld).af = some f
          ∧ f.I = target ∧ f.TP = -3/2 ∧ f.LRA = 11 := by
  refine ⟨rfl, ?_⟩
  cases ld with
  | none => exact ⟨_, rfl, rfl, rfl, rfl⟩
  | some m => exact ⟨_, rfl, rfl, rfl, rfl⟩

/-- C4 counterexample: the label line `0.1875→0→T` parses to 0.1875 s, whose
millisecond value the tool computes as int(187.5) = 187, while rounding to
the nearest integer as the claim states would give 188. -/
theorem start_ms_round_counterexample :
    parse_audacity_labels ["0.1875\t0\tT"] = some [⟨3/16, "T"⟩]
      ∧ (resolveChapters [⟨3/16, "T"⟩] 1).map ResolvedChapter.start_ms = [187]
      ∧ roundHalfEven ((3/16 : ℚ) * 1000) = 188
      ∧ (187 : ℤ) ≠ 188 := by
  refine ⟨by with_unfolding_all decide, ?_, ?_, by decide⟩
  · simp only [resolveChapters, pyInt_eq, List.map_cons, List.map_nil]
    norm_num
  · simp only [roundHalfEven, rat_floor_eq]
    norm_num

/-- C4 amended: for every parsed label line the chapter's start in
milliseconds is the TRUNCATION toward zero of field0 * 1000 (`int(...)`),
not the rounding to nearest. -/
theorem start_ms_truncates (line : String) (p0 p1 p2 : List Char) (ps : List (List Char))
    (q d : ℚ)
    (hsplit : splitSep '\t' (pyStrip line.data) = p0 :: p1 :: p2 :: ps)
    (hq : pyFloat (String.mk p0) = some q) :
    parse_audacity_labels [line] = some [⟨q, String.mk p2⟩]
      ∧ (resolveChapters [⟨q, String.mk p2⟩] d).map ResolvedChapter.start_ms
          = [pyInt (q * 1000)] :=
  ⟨parse_single line p0 p1 p2 ps q hsplit hq, by simp [resolveChapters]⟩

/-- Witness for C4 at the line `0.1875→0→T` with duration 1 s. -/
theorem start_ms_truncates_witness :
    parse_audacity_labels ["0.1875\t0\tT"] = some [⟨3/16, "T"⟩]
      ∧ (resolveChapters [⟨3/16, "T"⟩] 1).map ResolvedChapter.start_ms
          = [pyInt ((3/16 : ℚ) * 1000)] :=
  start_ms_truncates "0.1875\t0\tT" "0.1875".data "0".data "T".data [] (3/16) 1
    (by decide) (by with_unfolding_all decide)

/-- C5 counterexample: a title containing a literal tab is NOT preserved:
the line `1.0→2.0→Hello→World` yields the title "Hello" (field 2 alone),
not "Hello\tWorld". -/
theorem title_tab_counterexample :
    parse_audacity_labels ["1.0\t2.0\tHello\tWorld"] = some [⟨1, "Hello"⟩]
      ∧ "Hello" ≠ "Hello\tWorld" :=
  ⟨by with_unfolding_all decide, by decide⟩

/-- C5 amended: the chapter title is exactly field 2 of the tab-split line;
any further tab-separated fields are discarded, so a title containing a
literal tab is truncated at its first tab. -/
theorem title_is_field2 (line : String) (p0 p1 p2 : List Char) (ps : List (List Char))
    (q : ℚ)
    (hsplit : splitSep '\t' (pyStrip line.data) = p0 :: p1 :: p2 :: ps)
    (hq : pyFloat (String.mk p0) = some q) :
    parse_audacity_labels [line] = some [⟨q, String.mk p2⟩] :=
  parse_single line p0 p1 p2 ps q hsplit hq

/-- Witness for C5: a line with four fields keeps only the third as title. -/
theorem title_is_field2_witness :
    parse_audacity_labels ["1.0\t2.0\tHello\tWorld"] = some [⟨1, "Hello"⟩] :=
  title_is_field2 "1.0\t2.0\tHello\tWorld" "1.0".data "2.0".data "Hello".data
    ["World".data] 1 (by decide) (by with_unfolding_all decide)

/-- C6 counterexample: a line with at least three fields whose first field
does not parse as a number is NOT skipped — the `ValueError` escapes and
parsing aborts (modeled by `none`). -/
theorem parser_abort_counterexample :
    parse_audacity_labels ["abc\tx\ty"] = none := by
  with_unfolding_all decide

/-- C6 amended: blank lines and lines with fewer than three tab-separated
fields are skipped silently and parsing continues, but a line with at least
three fields whose first field fails to parse as a float aborts
`parse_audacity_labels` with an uncaught error. -/
theorem parser_skip_policy (line : String) (lines : List String)
    (h : (splitSep '\t' (pyStrip line.data)).length < 3) :
    parse_audacity_labels (line :: lines) = parse_audacity_labels lines
      ∧ parse_audacity_labels ["abc\tx\ty"] = none :=
  ⟨parse_skip_short line lines h, by with_unfolding_all decide⟩

/-- Witness for C6: a blank line is skipped in front of a valid line. -/
theorem parser_skip_policy_witness :
    parse_audacity_labels ["", "1.0\t2.0\tIntro"] = parse_audacity_labels ["1.0\t2.0\tIntro"]
      ∧ parse_audacity_labels ["abc\tx\ty"] = none :=
  parser_skip_policy "" ["1.0\t2.0\tIntro"] (by decide)

/-- C7 counterexample: `format_time_hhmmss` interprets its argument as
SECONDS, so feeding it the millisecond count 3725750 yields
"1034:55:50.000", not "01:02:05.750". -/
theorem format_time_ms_counterexample :
    format_time_hhmmss 3725750 = "1034:55:50.000"
      ∧ "1034:55:50.000" ≠ "01:02:05.750" := by
  constructor
  · simp only [format_time_hhmmss, pyFloorDivInt, pyMod, pyFormat02d, pyFormat063f,
      roundHalfEven, fixed3, padZeros, rat_floor_eq]
    norm_num
    decide
  · decide

/-- C7 amended: the formatter maps a SECONDS value to `HH:MM:SS.mmm`; the
timestamp 3725750 ms equals 3725.75 s and formats as "01:02:05.750". -/
theorem format_time_seconds :
    format_time_hhmmss ((3725750 : ℚ) / 1000) = "01:02:05.750" := by
  simp only [format_time_hhmmss, pyFloorDivInt, pyMod, pyFormat02d, pyFormat063f,
    roundHalfEven, fixed3, padZeros, rat_floor_eq]
  norm_num
  decide

/-- C8: the metadata file content starts with the `;FFMETADATA1` header line
and continues, for each resolved chapter in order, with exactly the five
lines `[CHAPTER]`, `TIMEBASE=1/1000`, `START=<ms>`, `END=<ms>`,
`title=<title>`, in this order (plus the empty fragment after the final
newline), provided no title contains a newline. -/
theorem ffmetadata_lines (chapters : List Chapter) (d : ℚ)
    (h : ∀ c ∈ chapters, '\n' ∉ c.title.data) :
    splitSep '\n' (ffmetadataText chapters d).data =
      ";FFMETADATA1".data ::
        (((resolveChapters chapters d).flatMap fun r =>
          ["[CHAPTER]".data, "TIMEBASE=1/1000".data,
           ("START=" ++ toString r.start_ms).data,
           ("END=" ++ toString r.end_ms).data,
           ("title=" ++ r.title).data]) ++ [[]]) := by
  have hres : ∀ r ∈ resolveChapters chapters d, '\n' ∉ r.title.data := by
    intro r hr
    have hmem : r.title ∈ (resolveChapters chapters d).map ResolvedChapter.title :=
      List.mem_map_of_mem _ hr
    rw [resolve_map_title] at hmem
    obtain ⟨c, hc, he⟩ := List.mem_map.mp hmem
    rw [← he]
    exact h c hc
  have hdr : (ffmetadataText chapters d).data
      = ";FFMETADATA1".data ++ '\n' ::
          (concatWrites ((resolveChapters chapters d).flatMap chapterWrites)).data := by
    rw [ffmetadataText, ffmetadataWrites, concatWrites, String.data_append]
    have e : ";FFMETADATA1\n".data = ";FFMETADATA1".data ++ ['\n'] := rfl
    rw [e, List.append_assoc]
    rfl
  rw [hdr, splitSep_append _ _ (by decide), stanzas_splitSep _ hres]

/-- Witness for C8 on the two-chapter example. -/
theorem ffmetadata_lines_witness :
    splitSep '\n' (ffmetadataText [⟨0, "Intro"⟩, ⟨21/2, "Chapter Two"⟩] 20).data =
      ";FFMETADATA1".data ::
        (((resolveChapters [⟨0, "Intro"⟩, ⟨21/2, "Chapter Two"⟩] 20).flatMap fun r =>
          ["[CHAPTER]".data, "TIMEBASE=1/1000".data,
           ("START=" ++ toString r.start_ms).data,
           ("END=" ++ toString r.end_ms).data,
           ("title=" ++ r.title).data]) ++ [[]]) :=
  ffmetadata_lines [⟨0, "Intro"⟩, ⟨21/2, "Chapter Two"⟩] 20 (by decide)

/-- C9: with normalization on, a failed measurement (subprocess error or
unparseable output) makes the pipeline fall back to the single-pass dynamic
filter carrying only the target triple, a successful measurement makes it
apply the linear-mode filter carrying the four measured values, and in both
cases the encoder is pointed at the output file. -/
theorem normalize_fallback_dispatch (out : String) (target : ℚ) (outcome : MeasureOutcome) :
    ((analyze_loudness outcome = none) →
      (convert_to_mp3_pipeline out true target outcome).af
        = some ⟨target, -3/2, 11, none, false⟩)
      ∧ (∀ m, analyze_loudness outcome = some m →
        (convert_to_mp3_pipeline out true target outcome).af
          = some ⟨target, -3/2, 11, some m, true⟩)
      ∧ (convert_to_mp3_pipeline out true target outcome).output = out := by
  refine ⟨?_, ?_, ?_⟩
  · intro h
    cases outcome with
    | procError => rfl
    | unparseable => rfl
    | parsed m => simp [analyze_loudness] at h
  · intro m hm
    cases outcome with
    | procError => simp [analyze_loudness] at hm
    | unparseable => simp [analyze_loudness] at hm
    | parsed m2 =>
      simp only [analyze_loudness, Option.some.injEq] at hm
      subst hm
      rfl
  · cases outcome <;> rfl

/-- Witness for C9: a failing and a succeeding measurement at target
-16 LUFS. -/
theorem normalize_fallback_dispatch_witness :
    (convert_to_mp3_pipeline "o.mp3" true (-16) .procError).af
        = some ⟨-16, -3/2, 11, none, false⟩
      ∧ (convert_to_mp3_pipeline "o.mp3" true (-16) (.parsed ⟨-23, -7, 9, -33⟩)).af
          = some ⟨-16, -3/2, 11, some ⟨-23, -7, 9, -33⟩, true⟩
      ∧ (convert_to_mp3_pipeline "o.mp3" true (-16) .procError).output = "o.mp3" :=
  ⟨(normalize_fallback_dispatch "o.mp3" (-16) .procError).1 rfl,
   (normalize_fallback_dispatch "o.mp3" (-16) (.parsed ⟨-23, -7, 9, -33⟩)).2.1
     ⟨-23, -7, 9, -33⟩ rfl,
   (normalize_fallback_dispatch "o.mp3" (-16) .procError).2.2⟩

/-- C10 counterexample: the conversion step hands ffmpeg the final output
path itself and performs no temporary-file rename, so a failed conversion
can leave a partial file at the target. -/
theorem convert_direct_write_counterexample :
    (convert_to_mp3_write "episode_chapters.mp3").subprocessOutput = "episode_chapters.mp3"
      ∧ (convert_to_mp3_write "episode_chapters.mp3").replaceOnSuccess = none :=
  ⟨rfl, rfl⟩

/-- C10 amended: only the chapter-embedding step is atomic — it writes to
the `.tmp.mp3` sibling and renames over the target on success — while the
conversion step writes directly to the final output path with no temporary
location or rename. -/
theorem write_step_atomicity :
    (∀ p, (convert_to_mp3_write p).subprocessOutput = p
      ∧ (convert_to_mp3_write p).replaceOnSuccess = none)
      ∧ (∀ p, (embed_chapters_write p).replaceOnSuccess
          = some ((embed_chapters_write p).subprocessOutput, p))
      ∧ (embed_chapters_write "episode_chapters.mp3").subprocessOutput
          = "episode_chapters.tmp.mp3"
      ∧ "episode_chapters.tmp.mp3" ≠ "episode_chapters.mp3" := by
  refine ⟨fun p => ⟨rfl, rfl⟩, fun p => rfl, ?_, by decide⟩
  with_unfolding_all decide
